import Mathlib

/-!
Verification of the Halley wallet chaincode (repository A01334390/Halley).

The repository contains two Go implementations of the same wallet ledger,
both Hyperledger Fabric chaincodes:

* `coggia.go` (`SimpleChaincode`, here namespace `Coggia`): wallet record
  `Wallet{Address string; Balance int}` with exported fields, operations
  `initWallet`, `readWallet`, `transferFunds`, `getWalletsByRange`.
* the unnamed file `part_000` (`SmartContract`, here namespace `Halley`):
  wallet record `Wallet{id string; balance int; owner string}` whose fields
  are all unexported (lower-case), operations `createWallet`, `queryWallet`,
  `transferFunds`, `deleteWallet`.

The Fabric stub (`GetState`/`PutState`/`DelState`/`GetStateByRange`) is the
external collaborator; it is modelled as a key-sorted association list from
string keys to stored byte values, together with per-key fault oracles (a
`some msg` entry means the backing store faults with that message on the
corresponding call) and a trace of the store operations performed.  Following
spec section 4.2, `GetStateByRange start end` yields the entries with keys in
`[start, end)` in store iteration order (the store list order, kept sorted by
key as LevelDB does).

Go `int` values are modelled as `Int`, with the 64-bit twos-complement
wraparound of Go signed arithmetic applied through `wrap64` at the arithmetic
sites where the source computes on `int` (the balance updates of the two
transfer implementations). The range check of `strconv.Atoi` (values outside
64 bits, where Go returns a clamped value together with an error) is not
modelled, since no claim depends on it.

Byte strings stored by the code are modelled by the closed value domain
`Bytes`: the output of `json.Marshal` on a `Coggia` wallet (an object with
`address` and `balance` fields), the output of `json.Marshal` on a `Halley`
wallet (which is the two bytes `{}`, because `encoding/json` ignores
unexported struct fields, their json tags notwithstanding), and the one-byte
sentinel `0x00` written for index entries.  `json.Unmarshal` is modelled on
this domain exactly as Go behaves on the corresponding byte strings.
-/

/-- A stored byte string: every value this program ever writes to the store.
`cWallet a b` stands for the bytes `{"address":"a","balance":b}` produced by
marshalling a Coggia wallet; `hWallet` stands for the bytes `{}` produced by
marshalling a Halley wallet (all of whose fields are unexported, so
`encoding/json` emits an empty object); `sentinel` stands for the single byte
`0x00` stored under composite index keys. -/
inductive Bytes where
  | cWallet (address : String) (balance : Int)
  | hWallet
  | sentinel
deriving Repr, DecidableEq

/-- A chaincode response: `shim.Success` with an optional payload (Go `nil`
payload modelled as `none`) or `shim.Error` with a message. -/
inductive Response where
  | success (payload : Option String)
  | error (msg : String)
deriving Repr, DecidableEq

/-- One store operation performed through the Fabric stub. -/
inductive StoreOp where
  | get (k : String)
  | put (k : String)
  | del (k : String)
  | range (startKey endKey : String)
deriving Repr, DecidableEq

/-- Look a key up in the store list (keys are unique by construction, so the
first match is the match). Models the backing store read behind `GetState`:
`none` is the Fabric `nil` result for an absent key. -/
def stGet : List (String × Bytes) → String → Option Bytes
  | [], _ => none
  | (k', v') :: rest, k => if k = k' then some v' else stGet rest k

/-- Lexicographic order on character lists by unicode scalar value. On valid
unicode strings this coincides with the Go byte-wise comparison of their UTF-8
encodings (UTF-8 preserves code-point order), which is the key order of the
backing store. -/
def charsLt : List Char → List Char → Bool
  | _, [] => false
  | [], _ :: _ => true
  | c :: cs, d :: ds =>
    if c.toNat < d.toNat then true
    else if d.toNat < c.toNat then false
    else charsLt cs ds

/-- Lexicographic order on store keys (see `charsLt`). -/
def strLt (a b : String) : Bool := charsLt a.data b.data

/-- Write a key into the store list, keeping it sorted by key (LevelDB keeps
keys in lexicographic byte order, which is what `GetStateByRange` iterates
in). An existing entry for the key is replaced. Models the store write behind
`PutState`. -/
def stPut : List (String × Bytes) → String → Bytes → List (String × Bytes)
  | [], k, v => [(k, v)]
  | (k', v') :: rest, k, v =>
    if strLt k k' then (k, v) :: (k', v') :: rest
    else if k = k' then (k, v) :: rest
    else (k', v') :: stPut rest k v

/-- Remove a key from the store list. Models the store delete behind
`DelState`; deleting an absent key leaves the store unchanged. -/
def stDel (st : List (String × Bytes)) (k : String) : List (String × Bytes) :=
  st.filter (fun kv => kv.1 ≠ k)

/-- The Fabric stub as seen by one invocation: the current state store, the
fault oracles for the four store primitives (`some msg` = the backing store
faults with message `msg` on that key), and the trace of store operations
performed so far. -/
structure Stub where
  store : List (String × Bytes)
  getFails : String → Option String
  putFails : String → Option String
  delFails : String → Option String
  rangeFails : Option String
  trace : List StoreOp

/-- `stub.GetState k`: returns the stored bytes (`none` = key absent) or a
backing-store fault, and logs the read. -/
def Stub.get (stub : Stub) (k : String) : Except String (Option Bytes) × Stub :=
  (match stub.getFails k with
   | some m => Except.error m
   | none => Except.ok (stGet stub.store k),
   { stub with trace := stub.trace ++ [StoreOp.get k] })

/-- `stub.PutState k v`: writes the bytes unless the backing store faults,
and logs the write. A faulting put leaves the store unchanged. -/
def Stub.put (stub : Stub) (k : String) (v : Bytes) : Except String Unit × Stub :=
  match stub.putFails k with
  | some m => (Except.error m, { stub with trace := stub.trace ++ [StoreOp.put k] })
  | none =>
    (Except.ok (),
     { stub with store := stPut stub.store k v, trace := stub.trace ++ [StoreOp.put k] })

/-- `stub.DelState k`: removes the key unless the backing store faults, and
logs the delete. -/
def Stub.del (stub : Stub) (k : String) : Except String Unit × Stub :=
  match stub.delFails k with
  | some m => (Except.error m, { stub with trace := stub.trace ++ [StoreOp.del k] })
  | none =>
    (Except.ok (),
     { stub with store := stDel stub.store k, trace := stub.trace ++ [StoreOp.del k] })

/-- `stub.GetStateByRange startKey endKey`: per spec section 4.2, the entries
with key in `[startKey, endKey)` in store iteration order, or a fault. The
(already fully consumed) iteration is logged. -/
def Stub.range (stub : Stub) (startKey endKey : String) :
    Except String (List (String × Bytes)) × Stub :=
  (match stub.rangeFails with
   | some m => Except.error m
   | none =>
     Except.ok (stub.store.filter (fun kv => !strLt kv.1 startKey && strLt kv.1 endKey)),
   { stub with trace := stub.trace ++ [StoreOp.range startKey endKey] })

/-- Numeric value of a list of decimal digit characters. -/
def digitsVal (l : List Char) : Nat :=
  l.foldl (fun acc c => acc * 10 + (c.toNat - '0'.toNat)) 0

/-- The Go function `strconv.Atoi`: an optional sign followed by at least one decimal
digit; anything else is an error (`none`). the additional 64-bit range check of Go
is not modelled. -/
def Atoi (s : String) : Option Int :=
  match s.data with
  | [] => none
  | c :: rest =>
    if c = '-' then
      if rest ≠ [] ∧ rest.all Char.isDigit then some (-(digitsVal rest : Int)) else none
    else if c = '+' then
      if rest ≠ [] ∧ rest.all Char.isDigit then some (digitsVal rest : Int) else none
    else if (c :: rest).all Char.isDigit then some (digitsVal (c :: rest) : Int)
    else none

/-- The Go function `strconv.Itoa` on the modelled `int`. -/
def Itoa (n : Int) : String := toString n

/-- Twos-complement wraparound of a 64-bit Go `int` arithmetic result: the
literals are 2^63 and 2^64, so the value is reduced into
[-2^63, 2^63). Go signed integer overflow wraps around (the Go spec defines
it as twos-complement), so every `+`/`-` the source performs on balances is
modelled as the mathematical operation followed by `wrap64`. -/
def wrap64 (n : Int) : Int :=
  (n + 9223372036854775808) % 18446744073709551616 - 9223372036854775808

/-- The value range of a 64-bit Go `int`: [-2^63, 2^63). -/
def int64Range (n : Int) : Prop := -(2 ^ 63) ≤ n ∧ n < 2 ^ 63

/-- The Fabric function `CreateCompositeKey objectType attributes`: the `0x00` namespace
byte, then the object type, then each attribute, each component terminated by
a `0x00` byte. (the Fabric utf8 validation of the components cannot fail on
Lean strings, which are sequences of unicode scalar values, so the error
branch of `CreateCompositeKey` is unreachable in the model and the caller
`err != nil` checks on it are dropped.) -/
def compositeKey (objectType : String) (attributes : List String) : String :=
  "\x00" ++ objectType ++ "\x00" ++ attributes.foldl (fun acc a => acc ++ a ++ "\x00") ""

/-- Placeholder for the message text of a Go `encoding/json` unmarshal error
(the code surfaces `err.Error()`; the exact text depends on the input and is
not needed by any claim). -/
def jsonErrText : String := "json unmarshal error"

/-- The raw character content of stored bytes, as the Go `string(bytes)`
conversion produces it: `cWallet` renders as the marshalled JSON object,
`hWallet` as `{}`, and the sentinel as the single `0x00` character. -/
def bytesToString : Bytes → String
  | Bytes.cWallet a b => "\x7b\"address\":\"" ++ a ++ "\",\"balance\":" ++ Itoa b ++ "\x7d"
  | Bytes.hWallet => "\x7b\x7d"
  | Bytes.sentinel => "\x00"

namespace Coggia

/-- The wallet record of `coggia.go`: exported fields `Address`, `Balance`
with json tags `address`, `balance`. -/
structure Wallet where
  Address : String
  Balance : Int
deriving Repr, DecidableEq

/-- `json.Marshal` on a Coggia wallet: the object with its two tagged
fields. -/
def marshalWallet (w : Wallet) : Bytes := Bytes.cWallet w.Address w.Balance

/-- `json.Unmarshal` of stored bytes into a Coggia `Wallet`: a marshalled
Coggia wallet restores both fields; the empty object `{}` (a marshalled
Halley wallet) is valid JSON that sets no fields, leaving the zero value;
the `0x00` sentinel is not valid JSON and errors. -/
def unmarshalWallet : Bytes → Option Wallet
  | Bytes.cWallet a b => some ⟨a, b⟩
  | Bytes.hWallet => some ⟨"", 0⟩
  | Bytes.sentinel => none

end Coggia

namespace Halley

/-- The wallet record of the unnamed source file: fields `id`, `balance`,
`owner`, all unexported (lower-case) in the Go source, with json tags that
`encoding/json` therefore ignores. -/
structure Wallet where
  id : String
  balance : Int
  owner : String
deriving Repr, DecidableEq

/-- `json.Marshal` on a Halley wallet: because every field is unexported,
`encoding/json` emits the empty object `{}` whatever the field values are. -/
def marshalWallet (_ : Wallet) : Bytes := Bytes.hWallet

/-- `json.Unmarshal` of stored bytes into a Halley `Wallet`: any valid JSON
object sets none of the (unexported) fields and succeeds with the zero value;
the `0x00` sentinel is not valid JSON and errors. -/
def unmarshalWallet : Bytes → Option Wallet
  | Bytes.sentinel => none
  | _ => some ⟨"", 0, ""⟩

/-- `json.Unmarshal` applied to the raw result of `GetState` (which may be
Go `nil` for an absent key; unmarshalling `nil` bytes is an error). -/
def unmarshalWalletOpt : Option Bytes → Option Wallet
  | none => none
  | some b => unmarshalWallet b

end Halley

/-- The balance recorded at a store key, read through the Coggia decoder
(`none` when the key is absent or its bytes do not decode). -/
def Coggia.balanceAt (st : List (String × Bytes)) (k : String) : Option Int :=
  (stGet st k).bind (fun b => (Coggia.unmarshalWallet b).map Coggia.Wallet.Balance)

/-- The balance recorded at a store key, read through the Halley decoder. -/
def Halley.balanceAt (st : List (String × Bytes)) (k : String) : Option Int :=
  (stGet st k).bind (fun b => (Halley.unmarshalWallet b).map Halley.Wallet.balance)

/-- A fault-free stub with an empty store and an empty trace; concrete test
stores are built from it by overriding fields. -/
def stub0 : Stub :=
  { store := [], getFails := fun _ => none, putFails := fun _ => none,
    delFails := fun _ => none, rangeFails := none, trace := [] }

/-- One element of the range-query response array, as the claim describes
it: the object with the key of the entry and its raw stored record. -/
def rangeEntry (kv : String × Bytes) : String :=
  "\x7b\"Key\":\"" ++ kv.1 ++ "\", \"Record\":" ++ bytesToString kv.2 ++ "\x7d"

/-- Comma-separated concatenation (the body of a JSON array, spec side). -/
def commaSeparated : List String → String
  | [] => ""
  | [x] => x
  | x :: y :: rest => x ++ "," ++ commaSeparated (y :: rest)

/-- The JSON array the claim expects from a range query: one `rangeEntry`
object per scanned entry, comma separated, in iteration order. -/
def rangeArray (l : List (String × Bytes)) : String :=
  "[" ++ commaSeparated (l.map rangeEntry) ++ "]"

namespace Coggia

/-- `initWallet` from `coggia.go`: stores a new wallet under its address and
writes a composite index entry. The source discards the `strconv.Atoi` error
(`balance, _ := strconv.Atoi(args[1])`, so a failed parse leaves balance `0`
and the `err != nil` check on the still-nil `err` variable is dead code),
checks `len(args[0])` twice instead of checking `args[1]`, performs no
duplicate-address check, and discards the result of the index-entry
`PutState` (line 111). -/
def initWallet (stub : Stub) (args : List String) : Response × Stub :=
  match args with
  | [address, balStr] =>
    if address.length ≤ 0 then (Response.error "Arguments can\x27t be non empty", stub)
    else
      let balance : Int := (Atoi balStr).getD 0
      let w : Wallet := { Address := address, Balance := balance }
      match stub.put address (marshalWallet w) with
      | (Except.error m, stub) => (Response.error m, stub)
      | (Except.ok _, stub) =>
        let indexKey := compositeKey "address~balance" [w.Address, Itoa w.Balance]
        let (_, stub) := stub.put indexKey Bytes.sentinel
        (Response.success none, stub)
  | _ => (Response.error "Incorrect Number of arguments, expecting 2", stub)

/-- `readWallet` from `coggia.go`: returns the raw stored record, or a JSON
error message when the key is absent or the store faults. -/
def readWallet (stub : Stub) (args : List String) : Response × Stub :=
  match args with
  | [address] =>
    match stub.get address with
    | (Except.error _, stub) =>
      (Response.error ("\x7b\"Error\":\"Failed to get state for " ++ address ++ "\"\x7d"), stub)
    | (Except.ok none, stub) =>
      (Response.error ("\x7b\"Error\":\"Wallet does not exist: " ++ address ++ "\"\x7d"), stub)
    | (Except.ok (some v), stub) => (Response.success (some (bytesToString v)), stub)
  | _ => (Response.error "Incorrect number of arguments, expecting the address to query", stub)

/-- `transferFunds` from `coggia.go`: moves `transfer` units from the wallet
at `args[0]` to the wallet at `args[1]`. The source discards the
`strconv.Atoi` error on `args[2]` (`transfer, _ :=`), so an unparseable
amount is treated as `0`; both missing-wallet branches return the message
"Wallet 1 doesn\x27t exist". The balance updates are 64-bit Go `int`
additions, which wrap on overflow (`wrap64`). The `to` record is written
before the `from` record. -/
def transferFunds (stub : Stub) (args : List String) : Response × Stub :=
  match args with
  | fromId :: toId :: amountStr :: _ =>
    let transfer : Int := (Atoi amountStr).getD 0
    match stub.get fromId with
    | (Except.error m, stub) => (Response.error ("Failed to get Wallet: " ++ m), stub)
    | (Except.ok none, stub) => (Response.error "Wallet 1 doesn\x27t exist", stub)
    | (Except.ok (some fromBytes), stub) =>
      match stub.get toId with
      | (Except.error m, stub) => (Response.error ("Failed to get Wallet: " ++ m), stub)
      | (Except.ok none, stub) => (Response.error "Wallet 1 doesn\x27t exist", stub)
      | (Except.ok (some toBytes), stub) =>
        match unmarshalWallet fromBytes with
        | none => (Response.error jsonErrText, stub)
        | some walletFrom =>
          match unmarshalWallet toBytes with
          | none => (Response.error jsonErrText, stub)
          | some walletTo =>
            let walletTo' := { walletTo with Balance := wrap64 (walletTo.Balance + transfer) }
            let walletFrom' := { walletFrom with Balance := wrap64 (walletFrom.Balance - transfer) }
            match stub.put toId (marshalWallet walletTo') with
            | (Except.error m, stub) => (Response.error m, stub)
            | (Except.ok _, stub) =>
              match stub.put fromId (marshalWallet walletFrom') with
              | (Except.error m, stub) => (Response.error m, stub)
              | (Except.ok _, stub) => (Response.success none, stub)
  | _ => (Response.error "Incorrect number of arguments. Expecting 3", stub)

/-- The body of the `resultsIterator` loop in `getWalletsByRange`: each entry
is written as `{"Key":"<key>", "Record":<raw value>}`, with a comma before
every entry except the first (tracked by the `bArrayMemberAlreadyWritten`
flag, the first argument here). -/
def writeEntries : Bool → List (String × Bytes) → String
  | _, [] => ""
  | alreadyWritten, (k, v) :: rest =>
    (if alreadyWritten then "," else "") ++
      "\x7b\"Key\":\"" ++ k ++ "\", \"Record\":" ++ bytesToString v ++ "\x7d" ++
      writeEntries true rest

/-- `getWalletsByRange` from `coggia.go`: renders the scanned entries as a
JSON array string. -/
def getWalletsByRange (stub : Stub) (args : List String) : Response × Stub :=
  match args with
  | startKey :: endKey :: _ =>
    match stub.range startKey endKey with
    | (Except.error m, stub) => (Response.error m, stub)
    | (Except.ok entries, stub) =>
      (Response.success (some ("[" ++ writeEntries false entries ++ "]")), stub)
  | _ => (Response.error "Incorrect number of arguments. Expecting 2", stub)

/-- The `Invoke` dispatcher of `coggia.go`. -/
def Invoke (stub : Stub) (function : String) (args : List String) : Response × Stub :=
  if function = "initWallet" then initWallet stub args
  else if function = "transferFunds" then transferFunds stub args
  else if function = "readWallet" then readWallet stub args
  else if function = "getWalletsByRange" then getWalletsByRange stub args
  else (Response.error "Received Unknown function invocation", stub)

end Coggia

namespace Halley

/-- `createWallet` from the unnamed source file: parses the balance, fails on
an already existing id, and stores the marshalled record (which is `{}`, the
fields being unexported). The `json.Marshal` error branch ("Failed to marshal
to JSON") is unreachable. -/
def createWallet (stub : Stub) (args : List String) : Response × Stub :=
  match args with
  | [id, balStr, owner] =>
    match Atoi balStr with
    | none => (Response.error "2nd argument can\x27t be parsed into an Integer", stub)
    | some balance =>
      match stub.get id with
      | (Except.error _, stub) => (Response.error "Failed to get marble", stub)
      | (Except.ok (some _), stub) =>
        (Response.error ("This wallet already exists: " ++ id), stub)
      | (Except.ok none, stub) =>
        match stub.put id (marshalWallet ⟨id, balance, owner⟩) with
        | (Except.error _, stub) => (Response.error "Failed to save the wallet", stub)
        | (Except.ok _, stub) => (Response.success none, stub)
  | _ => (Response.error "Incorrect number of arguments. Expecting 3", stub)

/-- `transferFunds` from the unnamed source file. Two slips of the source are
reproduced faithfully: the second existence check (line 104) tests
`fromAsBytes == nil` instead of `toAsBytes == nil`, so the
"Wallet [TO] does not exist" branch is dead and a missing [TO] record reaches
`json.Unmarshal(nil, ...)`; and the two `PutState` calls use the ids stored in
the decoded records (`from.id`, `to.id`), not `args[0]`/`args[1]`. (The
source appends the Go `error` value itself to the two save-failure messages,
which does not compile in Go; it is modelled as appending the fault message.)
The balance updates are 64-bit Go `int` additions, which wrap on overflow
(`wrap64`). The `from` record is written before the `to` record. -/
def transferFunds (stub : Stub) (args : List String) : Response × Stub :=
  match args with
  | a0 :: a1 :: a2 :: _ =>
    match stub.get a0 with
    | (Except.error _, stub) => (Response.error "Failed to get [FROM] Wallet", stub)
    | (Except.ok fromAsBytes, stub) =>
      if fromAsBytes = none then (Response.error "Wallet [FROM] does not exist", stub)
      else
        match stub.get a1 with
        | (Except.error _, stub) => (Response.error "Failed to get [TO] Wallet", stub)
        | (Except.ok toAsBytes, stub) =>
          if fromAsBytes = none then (Response.error "Wallet [TO] does not exist", stub)
          else
            match unmarshalWalletOpt fromAsBytes with
            | none => (Response.error "Failed to unmarshal wallet", stub)
            | some fromW =>
              match unmarshalWalletOpt toAsBytes with
              | none => (Response.error "Failed to unmarshal wallet", stub)
              | some toW =>
                match Atoi a2 with
                | none => (Response.error "Failed to parse into Integer", stub)
                | some funds =>
                  let fromW' := { fromW with balance := wrap64 (fromW.balance - funds) }
                  let toW' := { toW with balance := wrap64 (toW.balance + funds) }
                  match stub.put fromW'.id (marshalWallet fromW') with
                  | (Except.error m, stub) =>
                    (Response.error ("Error saving the state of wallet [F]" ++ m), stub)
                  | (Except.ok _, stub) =>
                    match stub.put toW'.id (marshalWallet toW') with
                    | (Except.error m, stub) =>
                      (Response.error ("Error saving the state of the wallet [T]" ++ m), stub)
                    | (Except.ok _, stub) => (Response.success none, stub)
  | _ => (Response.error "Incorrect Number of arguments. Expecting 3", stub)

/-- `queryWallet` from the unnamed source file: wraps the raw stored record
in an `ID`/`RESULT` envelope. (The source passes the envelope string where
`shim.Success` expects bytes, which does not compile in Go; it is modelled as
the string payload.) -/
def queryWallet (stub : Stub) (args : List String) : Response × Stub :=
  match args with
  | id :: _ =>
    match stub.get id with
    | (Except.error _, stub) =>
      (Response.error ("\x7b\"Error\":\"Failed to get state for " ++ id ++ "\"\x7d"), stub)
    | (Except.ok none, stub) =>
      (Response.error ("\x7b\"Error\":\"Wallet does not exist: " ++ id ++ "\"\x7d"), stub)
    | (Except.ok (some v), stub) =>
      (Response.success
        (some ("\x7b\"ID\":\"" ++ id ++ "\",\"RESULT\":\"" ++ bytesToString v ++ "\"\x7d")), stub)
  | [] => (Response.error "Incorrect number of arguments. Expecting 1", stub)

/-- `deleteWallet` from the unnamed source file: unconditionally deletes the
key from the state (no existence check). -/
def deleteWallet (stub : Stub) (args : List String) : Response × Stub :=
  match args with
  | id :: _ =>
    match stub.del id with
    | (Except.error _, stub) => (Response.error "Failed to delete state", stub)
    | (Except.ok _, stub) => (Response.success none, stub)
  | [] => (Response.error "Incorrect number of arguments. Expecting 1", stub)

/-- The `Invoke` dispatcher of the unnamed source file. -/
def Invoke (stub : Stub) (function : String) (args : List String) : Response × Stub :=
  if function = "transferFunds" then transferFunds stub args
  else if function = "createWallet" then createWallet stub args
  else if function = "queryWallet" then queryWallet stub args
  else if function = "deleteWallet" then deleteWallet stub args
  else (Response.error "Received Unknown function invocation", stub)

end Halley

/-- Reading back the key just written yields the written value. -/
theorem stGet_stPut_self (l : List (String × Bytes)) (k : String) (v : Bytes) :
    stGet (stPut l k v) k = some v := by
  induction l with
  | nil => simp [stPut, stGet]
  | cons hd tl ih =>
    obtain ⟨k', v'⟩ := hd
    cases h1 : strLt k k'
    · by_cases h2 : k = k'
      · subst h2
        simp [stPut, h1, stGet]
      · simp [stPut, h1, h2, stGet, ih]
    · simp [stPut, h1, stGet]

/-- Writing one key leaves every other key unchanged. -/
theorem stGet_stPut_ne (l : List (String × Bytes)) (k : String) (v : Bytes)
    (j : String) (h : j ≠ k) : stGet (stPut l k v) j = stGet l j := by
  induction l with
  | nil => simp [stPut, stGet, h]
  | cons hd tl ih =>
    obtain ⟨k', v'⟩ := hd
    cases h1 : strLt k k'
    · by_cases h2 : k = k'
      · subst h2
        simp [stPut, h1, stGet, h]
      · by_cases h3 : j = k'
        · simp [stPut, h1, h2, stGet, h3]
        · simp [stPut, h1, h2, stGet, h3, ih]
    · simp [stPut, h1, stGet, h]

/-- The deleted key is gone after a delete. -/
theorem stGet_stDel_self (l : List (String × Bytes)) (k : String) :
    stGet (stDel l k) k = none := by
  induction l with
  | nil => simp [stDel, stGet]
  | cons hd tl ih =>
    obtain ⟨k', v'⟩ := hd
    by_cases h : k' = k
    · simpa [stDel, h] using ih
    · have : k ≠ k' := fun hk => h hk.symm
      simpa [stDel, h, stGet, this] using ih

/-- Deleting one key leaves every other key unchanged. -/
theorem stGet_stDel_ne (l : List (String × Bytes)) (k : String)
    (j : String) (h : j ≠ k) : stGet (stDel l k) j = stGet l j := by
  induction l with
  | nil => simp [stDel, stGet]
  | cons hd tl ih =>
    obtain ⟨k', v'⟩ := hd
    by_cases h1 : k' = k
    · subst h1
      simpa [stDel, stGet, h] using ih
    · by_cases h2 : j = k'
      · simp [stDel, h1, stGet, h2]
      · simpa [stDel, h1, stGet, h2] using ih

/-- Round trip of the Coggia wallet serialization: marshalled bytes decode to
the original wallet. -/
theorem Coggia.unmarshal_marshal (w : Coggia.Wallet) :
    Coggia.unmarshalWallet (Coggia.marshalWallet w) = some w := rfl

/-- Every successfully decoded Halley wallet is the zero wallet: the stored
bytes are always `{}` or another JSON value none of whose fields can be
assigned to the unexported struct fields. -/
theorem Halley.unmarshalWallet_eq_zero (b : Bytes) (w : Halley.Wallet)
    (h : Halley.unmarshalWallet b = some w) : w = ⟨"", 0, ""⟩ := by
  cases b <;> simp [Halley.unmarshalWallet] at h <;> exact h.symm

/-- A composite key built from an object type and two attributes is longer
than its first attribute, hence never equal to it. -/
theorem compositeKey_ne_attr (o a b : String) : compositeKey o [a, b] ≠ a := by
  intro h
  have hlen := congrArg String.length h
  simp only [compositeKey, List.foldl, String.length_append] at hlen
  have h0 : ("\x00" : String).length = 1 := rfl
  have he : ("" : String).length = 0 := rfl
  omega

/-- The wrapped value is congruent to the unwrapped one modulo 2^64, so the
two wrapped balance updates of a transfer preserve the balance sum modulo
2^64. -/
theorem wrap64_sum_mod (x y : Int) :
    (wrap64 x + wrap64 y) % 2 ^ 64 = (x + y) % 2 ^ 64 := by
  have h64 : (2 : Int) ^ 64 = 18446744073709551616 := by norm_num
  unfold wrap64
  rw [h64]
  omega

/-- `wrap64` is the identity on values already inside the 64-bit range. -/
theorem wrap64_eq_self (n : Int) (h : int64Range n) : wrap64 n = n := by
  obtain ⟨h1, h2⟩ := h
  have h63 : (2 : Int) ^ 63 = 9223372036854775808 := by norm_num
  rw [h63] at h2
  rw [show -(2 ^ 63 : Int) = -9223372036854775808 from by norm_num] at h1
  unfold wrap64
  omega

/-- Counterexample to C1 as stated: at the reachable store holding wallet
"rich" with balance 2^63 - 1 (the largest Go `int`) and wallet "b" with
balance 0, `transferFunds("rich", "b", "-1")` succeeds, and the Go `int`
subtraction `from.Balance -= -1` overflows and wraps to -2^63; the sum of
the two stored balances changes from 2^63 - 1 to -2^63 - 1 (a difference of
2^64), so the sum is not preserved as an unbounded-integer equality. -/
theorem transfer_overflow_breaks_sum :
    Coggia.balanceAt ({ stub0 with store :=
        [("b", Bytes.cWallet "b" 0), ("rich", Bytes.cWallet "rich" 9223372036854775807)] } : Stub).store
      "rich" = some 9223372036854775807 ∧
    Coggia.balanceAt ({ stub0 with store :=
        [("b", Bytes.cWallet "b" 0), ("rich", Bytes.cWallet "rich" 9223372036854775807)] } : Stub).store
      "b" = some 0 ∧
    (Coggia.transferFunds { stub0 with store :=
        [("b", Bytes.cWallet "b" 0), ("rich", Bytes.cWallet "rich" 9223372036854775807)] }
      ["rich", "b", "-1"]).1 = Response.success none ∧
    Coggia.balanceAt (Coggia.transferFunds { stub0 with store :=
        [("b", Bytes.cWallet "b" 0), ("rich", Bytes.cWallet "rich" 9223372036854775807)] }
      ["rich", "b", "-1"]).2.store "rich" = some (-9223372036854775808) ∧
    Coggia.balanceAt (Coggia.transferFunds { stub0 with store :=
        [("b", Bytes.cWallet "b" 0), ("rich", Bytes.cWallet "rich" 9223372036854775807)] }
      ["rich", "b", "-1"]).2.store "b" = some (-1) ∧
    ((-9223372036854775808 : Int) + (-1) ≠ 9223372036854775807 + 0) := by
  refine ⟨by decide, by decide, by decide, by decide, by decide, by decide⟩

/-- C1 (amended): for every pair of distinct existing wallets A and B and
every amount, if `transferFunds(A, B, n)` returns success then the sum of
the two stored balances is preserved modulo 2^64 (the balances being 64-bit
twos-complement Go integers); the sum is preserved exactly whenever neither
updated balance overflows the 64-bit range. In `coggia.go` the wrapped debit
and credit cancel modulo 2^64; in the unnamed variant a successful transfer
never changes the records at A and B at all (both writes land on key `""`),
so there the sum is preserved exactly in every case. -/
theorem transfer_preserves_balance_sum_mod :
    (∀ (stub : Stub) (A B amtStr : String) (a b : Int), A ≠ B →
      Coggia.balanceAt stub.store A = some a →
      Coggia.balanceAt stub.store B = some b →
      (Coggia.transferFunds stub [A, B, amtStr]).1 = Response.success none →
      ∃ a' b' : Int,
        Coggia.balanceAt (Coggia.transferFunds stub [A, B, amtStr]).2.store A = some a' ∧
        Coggia.balanceAt (Coggia.transferFunds stub [A, B, amtStr]).2.store B = some b' ∧
        (a' + b') % 2 ^ 64 = (a + b) % 2 ^ 64 ∧
        (int64Range (a - (Atoi amtStr).getD 0) → int64Range (b + (Atoi amtStr).getD 0) →
          a' + b' = a + b)) ∧
    (∀ (stub : Stub) (A B amtStr : String) (a b : Int), A ≠ B →
      Halley.balanceAt stub.store A = some a →
      Halley.balanceAt stub.store B = some b →
      (Halley.transferFunds stub [A, B, amtStr]).1 = Response.success none →
      ∃ a' b' : Int,
        Halley.balanceAt (Halley.transferFunds stub [A, B, amtStr]).2.store A = some a' ∧
        Halley.balanceAt (Halley.transferFunds stub [A, B, amtStr]).2.store B = some b' ∧
        a' + b' = a + b) := by
  constructor
  · intro stub A B amtStr a b hAB ha hb hsucc
    rcases hvA : stGet stub.store A with _ | vA
    · simp [Coggia.balanceAt, hvA] at ha
    rcases hwA : Coggia.unmarshalWallet vA with _ | wA
    · simp [Coggia.balanceAt, hvA, hwA] at ha
    rcases hvB : stGet stub.store B with _ | vB
    · simp [Coggia.balanceAt, hvB] at hb
    rcases hwB : Coggia.unmarshalWallet vB with _ | wB
    · simp [Coggia.balanceAt, hvB, hwB] at hb
    have haa : wA.Balance = a := by
      simp [Coggia.balanceAt, hvA, hwA] at ha
      exact ha
    have hbb : wB.Balance = b := by
      simp [Coggia.balanceAt, hvB, hwB] at hb
      exact hb
    rcases hga : stub.getFails A with _ | m
    swap
    · simp [Coggia.transferFunds, Stub.get, hga] at hsucc
    rcases hgb : stub.getFails B with _ | m
    swap
    · simp [Coggia.transferFunds, Stub.get, hga, hgb, hvA] at hsucc
    rcases hpB : stub.putFails B with _ | m
    swap
    · simp [Coggia.transferFunds, Stub.get, Stub.put, hga, hgb, hvA, hvB, hwA, hwB, hpB] at hsucc
    rcases hpA : stub.putFails A with _ | m
    swap
    · simp [Coggia.transferFunds, Stub.get, Stub.put, hga, hgb, hvA, hvB, hwA, hwB, hpB, hpA] at hsucc
    have hstore : (Coggia.transferFunds stub [A, B, amtStr]).2.store =
        stPut (stPut stub.store B
            (Bytes.cWallet wB.Address (wrap64 (wB.Balance + (Atoi amtStr).getD 0)))) A
          (Bytes.cWallet wA.Address (wrap64 (wA.Balance - (Atoi amtStr).getD 0))) := by
      simp [Coggia.transferFunds, Stub.get, Stub.put, Coggia.marshalWallet,
        hga, hgb, hvA, hvB, hwA, hwB, hpB, hpA]
    refine ⟨wrap64 (wA.Balance - (Atoi amtStr).getD 0),
      wrap64 (wB.Balance + (Atoi amtStr).getD 0), ?_, ?_, ?_, ?_⟩
    · rw [hstore]
      simp [Coggia.balanceAt, stGet_stPut_self, Coggia.unmarshalWallet]
    · rw [hstore]
      simp only [Coggia.balanceAt]
      rw [stGet_stPut_ne _ _ _ _ (Ne.symm hAB), stGet_stPut_self]
      simp [Coggia.unmarshalWallet]
    · rw [haa, hbb]
      have hm := wrap64_sum_mod (a - (Atoi amtStr).getD 0) (b + (Atoi amtStr).getD 0)
      rw [show a - (Atoi amtStr).getD 0 + (b + (Atoi amtStr).getD 0) = a + b from by ring] at hm
      exact hm
    · intro hr1 hr2
      rw [haa, hbb, wrap64_eq_self _ hr1, wrap64_eq_self _ hr2]
      ring
  · intro stub A B amtStr a b hAB ha hb hsucc
    rcases hvA : stGet stub.store A with _ | vA
    · simp [Halley.balanceAt, hvA] at ha
    rcases hwA : Halley.unmarshalWallet vA with _ | wA
    · simp [Halley.balanceAt, hvA, hwA] at ha
    rcases hvB : stGet stub.store B with _ | vB
    · simp [Halley.balanceAt, hvB] at hb
    rcases hwB : Halley.unmarshalWallet vB with _ | wB
    · simp [Halley.balanceAt, hvB, hwB] at hb
    have hzA := Halley.unmarshalWallet_eq_zero vA wA hwA
    have hzB := Halley.unmarshalWallet_eq_zero vB wB hwB
    subst hzA
    subst hzB
    have haa : a = 0 := by
      simp [Halley.balanceAt, hvA, hwA] at ha
      omega
    have hbb : b = 0 := by
      simp [Halley.balanceAt, hvB, hwB] at hb
      omega
    rcases hga : stub.getFails A with _ | m
    swap
    · simp [Halley.transferFunds, Stub.get, hga] at hsucc
    rcases hgb : stub.getFails B with _ | m
    swap
    · simp [Halley.transferFunds, Stub.get, hga, hgb, hvA] at hsucc
    rcases hAt : Atoi amtStr with _ | n
    · simp [Halley.transferFunds, Stub.get, Halley.unmarshalWalletOpt,
        hga, hgb, hvA, hvB, hwA, hwB, hAt] at hsucc
    rcases hp : stub.putFails "" with _ | m
    swap
    · simp [Halley.transferFunds, Stub.get, Stub.put, Halley.unmarshalWalletOpt,
        Halley.marshalWallet, hga, hgb, hvA, hvB, hwA, hwB, hAt, hp] at hsucc
    have hstore : (Halley.transferFunds stub [A, B, amtStr]).2.store =
        stPut (stPut stub.store "" Bytes.hWallet) "" Bytes.hWallet := by
      simp [Halley.transferFunds, Stub.get, Stub.put, Halley.unmarshalWalletOpt,
        Halley.marshalWallet, hga, hgb, hvA, hvB, hwA, hwB, hAt, hp]
    refine ⟨0, 0, ?_, ?_, by omega⟩
    · rw [hstore]
      by_cases hA0 : A = ""
      · subst hA0
        simp [Halley.balanceAt, stGet_stPut_self, Halley.unmarshalWallet]
      · simp only [Halley.balanceAt]
        rw [stGet_stPut_ne _ _ _ _ hA0, stGet_stPut_ne _ _ _ _ hA0, hvA]
        simp [hwA]
    · rw [hstore]
      by_cases hB0 : B = ""
      · subst hB0
        simp [Halley.balanceAt, stGet_stPut_self, Halley.unmarshalWallet]
      · simp only [Halley.balanceAt]
        rw [stGet_stPut_ne _ _ _ _ hB0, stGet_stPut_ne _ _ _ _ hB0, hvB]
        simp [hwB]

/-- Witness for C1 (amended): both halves of
`transfer_preserves_balance_sum_mod` applied to concrete two-wallet stores
with all hypotheses discharged. -/
theorem transfer_preserves_balance_sum_mod_witness :
    (∃ a' b' : Int,
      Coggia.balanceAt
        (Coggia.transferFunds { stub0 with store := [("acct1", Bytes.cWallet "acct1" 5), ("acct2", Bytes.cWallet "acct2" 7)] }
          ["acct1", "acct2", "3"]).2.store "acct1" = some a' ∧
      Coggia.balanceAt
        (Coggia.transferFunds { stub0 with store := [("acct1", Bytes.cWallet "acct1" 5), ("acct2", Bytes.cWallet "acct2" 7)] }
          ["acct1", "acct2", "3"]).2.store "acct2" = some b' ∧
      (a' + b') % 2 ^ 64 = (5 + 7) % 2 ^ 64 ∧
      (int64Range (5 - (Atoi "3").getD 0) → int64Range (7 + (Atoi "3").getD 0) →
        a' + b' = 5 + 7)) ∧
    (∃ a' b' : Int,
      Halley.balanceAt
        (Halley.transferFunds { stub0 with store := [("u", Bytes.hWallet), ("v", Bytes.hWallet)] }
          ["u", "v", "4"]).2.store "u" = some a' ∧
      Halley.balanceAt
        (Halley.transferFunds { stub0 with store := [("u", Bytes.hWallet), ("v", Bytes.hWallet)] }
          ["u", "v", "4"]).2.store "v" = some b' ∧
      a' + b' = 0 + 0) :=
  ⟨transfer_preserves_balance_sum_mod.1
      { stub0 with store := [("acct1", Bytes.cWallet "acct1" 5), ("acct2", Bytes.cWallet "acct2" 7)] }
      "acct1" "acct2" "3" 5 7 (by decide) rfl rfl rfl,
   transfer_preserves_balance_sum_mod.2
      { stub0 with store := [("u", Bytes.hWallet), ("v", Bytes.hWallet)] }
      "u" "v" "4" 0 0 (by decide) rfl rfl rfl⟩

/-- Counterexample to C2 as stated: `initWallet` (the `coggia.go` create
variant named by the claim) performs no existence check, so a second create
invocation for the address `"w1"` (already holding a wallet with balance 5)
succeeds and replaces the stored record with one of balance 7, instead of
failing with `ConflictError` and leaving the record unchanged. -/
theorem initWallet_overwrites_existing :
    stGet ({ stub0 with store := [("w1", Bytes.cWallet "w1" 5)] } : Stub).store "w1" =
      some (Bytes.cWallet "w1" 5) ∧
    (Coggia.initWallet { stub0 with store := [("w1", Bytes.cWallet "w1" 5)] } ["w1", "7"]).1 =
      Response.success none ∧
    stGet (Coggia.initWallet { stub0 with store := [("w1", Bytes.cWallet "w1" 5)] }
        ["w1", "7"]).2.store "w1" = some (Bytes.cWallet "w1" 7) := by
  refine ⟨by decide, by decide, by decide⟩

/-- C2 (amended): a second `createWallet` with an existing id fails with the
conflict error and leaves the store unchanged; `initWallet`, which performs
no duplicate check, succeeds on a second create of the same address and
replaces the stored record. -/
theorem create_uniqueness_amended :
    (∀ (stub : Stub) (id balStr o2 : String) (n : Int) (v : Bytes),
      Atoi balStr = some n → stub.getFails id = none → stGet stub.store id = some v →
      (Halley.createWallet stub [id, balStr, o2]).1 =
        Response.error ("This wallet already exists: " ++ id) ∧
      (Halley.createWallet stub [id, balStr, o2]).2.store = stub.store) ∧
    (∀ (stub : Stub) (addr balStr : String), 0 < addr.length → stub.putFails addr = none →
      (Coggia.initWallet stub [addr, balStr]).1 = Response.success none ∧
      stGet (Coggia.initWallet stub [addr, balStr]).2.store addr =
        some (Bytes.cWallet addr ((Atoi balStr).getD 0))) := by
  constructor
  · intro stub id balStr o2 n v hAt hget hv
    simp [Halley.createWallet, Stub.get, hAt, hget, hv]
  · intro stub addr balStr hlen hput
    have hne : ¬ (addr.length ≤ 0) := by omega
    rcases hidx : stub.putFails
        (compositeKey "address~balance" [addr, Itoa ((Atoi balStr).getD 0)]) with _ | m
    · constructor
      · simp [Coggia.initWallet, Stub.put, Coggia.marshalWallet, hne, hput, hidx]
      · have hck := Ne.symm (compositeKey_ne_attr "address~balance" addr (Itoa ((Atoi balStr).getD 0)))
        simp [Coggia.initWallet, Stub.put, Coggia.marshalWallet, hne, hput, hidx]
        rw [stGet_stPut_ne _ _ _ _ hck, stGet_stPut_self]
    · constructor
      · simp [Coggia.initWallet, Stub.put, Coggia.marshalWallet, hne, hput, hidx]
      · simp [Coggia.initWallet, Stub.put, Coggia.marshalWallet, hne, hput, hidx]
        rw [stGet_stPut_self]

/-- Witness for C2 (amended): both halves of `create_uniqueness_amended`
applied at concrete stores with all hypotheses discharged. -/
theorem create_uniqueness_amended_witness :
    ((Halley.createWallet { stub0 with store := [("w9", Bytes.hWallet)] } ["w9", "50", "bob"]).1 =
        Response.error ("This wallet already exists: " ++ "w9") ∧
      (Halley.createWallet { stub0 with store := [("w9", Bytes.hWallet)] }
        ["w9", "50", "bob"]).2.store = ({ stub0 with store := [("w9", Bytes.hWallet)] } : Stub).store) ∧
    ((Coggia.initWallet { stub0 with store := [("w1", Bytes.cWallet "w1" 5)] } ["w1", "7"]).1 =
        Response.success none ∧
      stGet (Coggia.initWallet { stub0 with store := [("w1", Bytes.cWallet "w1" 5)] }
        ["w1", "7"]).2.store "w1" = some (Bytes.cWallet "w1" ((Atoi "7").getD 0))) :=
  ⟨create_uniqueness_amended.1 { stub0 with store := [("w9", Bytes.hWallet)] } "w9" "50" "bob" 50
      Bytes.hWallet rfl rfl rfl,
   create_uniqueness_amended.2 { stub0 with store := [("w1", Bytes.cWallet "w1" 5)] } "w1" "7"
      (by decide) rfl⟩

/-- C3 (code bug): `createWallet("w1", 100, "alice")` succeeds, but the
stored bytes are the empty object (the fields of the `Wallet` struct are
unexported, so `encoding/json` drops all of them despite their json tags)
and decode back to the zero wallet `{id:"", balance:0, owner:""}`, not to
`{id:"w1", balance:100, owner:"alice"}`: the encode/decode round trip is
lossy, contradicting the claim. -/
theorem createWallet_serialization_lossy :
    (Halley.createWallet stub0 ["w1", "100", "alice"]).1 = Response.success none ∧
    stGet (Halley.createWallet stub0 ["w1", "100", "alice"]).2.store "w1" = some Bytes.hWallet ∧
    Halley.marshalWallet ⟨"w1", 100, "alice"⟩ = Bytes.hWallet ∧
    Halley.unmarshalWallet Bytes.hWallet = some ⟨"", 0, ""⟩ ∧
    (⟨"", 0, ""⟩ : Halley.Wallet) ≠ (⟨"w1", 100, "alice"⟩ : Halley.Wallet) := by
  refine ⟨by decide, by decide, rfl, rfl, by decide⟩

/-- C4 (code bug): with a store holding only `"w1"`, the Halley
`transferFunds("w1", "nope", "10")` fails with the unmarshal error, not with
a not-found error: the second existence check of the source tests
`fromAsBytes` instead of `toAsBytes`, so the missing [TO] record reaches
`json.Unmarshal(nil, ...)`. The store is left unchanged. -/
theorem transferFunds_missing_to_is_unmarshal_error :
    stGet ({ stub0 with store := [("w1", Bytes.hWallet)] } : Stub).store "nope" = none ∧
    (Halley.transferFunds { stub0 with store := [("w1", Bytes.hWallet)] }
        ["w1", "nope", "10"]).1 = Response.error "Failed to unmarshal wallet" ∧
    (Halley.transferFunds { stub0 with store := [("w1", Bytes.hWallet)] }
        ["w1", "nope", "10"]).2.store = [("w1", Bytes.hWallet)] := by
  refine ⟨by decide, by decide, by decide⟩

/-- C5 (code bug): the Coggia `transferFunds` discards the `strconv.Atoi`
error (`transfer, _ := strconv.Atoi(args[2])`), so with both wallets present
a non-numeric amount `"xyz"` does not produce a validation error: the call
succeeds, transferring 0 and rewriting both records with unchanged
balances. -/
theorem transferFunds_nonnumeric_amount_succeeds :
    Atoi "xyz" = none ∧
    (Coggia.transferFunds
        { stub0 with store := [("a", Bytes.cWallet "a" 5), ("b", Bytes.cWallet "b" 7)] }
        ["a", "b", "xyz"]).1 = Response.success none ∧
    (Coggia.transferFunds
        { stub0 with store := [("a", Bytes.cWallet "a" 5), ("b", Bytes.cWallet "b" 7)] }
        ["a", "b", "xyz"]).2.store = [("a", Bytes.cWallet "a" 5), ("b", Bytes.cWallet "b" 7)] := by
  refine ⟨by decide, by decide, by decide⟩

/-- C6 (code bug): a successful Halley `transferFunds("w1", "w2", "10")`
writes both records at key `""` — the `id` field of each decoded wallet,
which is always empty because serialization drops all fields — so a key
other than the two transfer arguments changes (`""` appears in the store)
while the records at `"w1"` and `"w2"` are never updated. The trace shows
both `PutState` calls targeting the empty key. -/
theorem transferFunds_mutates_empty_key :
    (Halley.transferFunds
        { stub0 with store := [("w1", Bytes.hWallet), ("w2", Bytes.hWallet)] }
        ["w1", "w2", "10"]).1 = Response.success none ∧
    stGet ({ stub0 with store := [("w1", Bytes.hWallet), ("w2", Bytes.hWallet)] } : Stub).store "" =
      none ∧
    stGet (Halley.transferFunds
        { stub0 with store := [("w1", Bytes.hWallet), ("w2", Bytes.hWallet)] }
        ["w1", "w2", "10"]).2.store "" = some Bytes.hWallet ∧
    (Halley.transferFunds
        { stub0 with store := [("w1", Bytes.hWallet), ("w2", Bytes.hWallet)] }
        ["w1", "w2", "10"]).2.trace =
      [StoreOp.get "w1", StoreOp.get "w2", StoreOp.put "", StoreOp.put ""] := by
  refine ⟨by decide, by decide, by decide, by decide⟩

/-- One unfolding step of the `getWalletsByRange` buffer loop. -/
theorem writeEntries_cons (aw : Bool) (k : String) (v : Bytes) (rest : List (String × Bytes)) :
    Coggia.writeEntries aw ((k, v) :: rest) =
      (if aw then "," else "") ++ "\x7b\"Key\":\"" ++ k ++ "\", \"Record\":" ++ bytesToString v ++
        "\x7d" ++ Coggia.writeEntries true rest := rfl

/-- The imperative buffer loop of `getWalletsByRange` (comma flag threading)
produces exactly the comma-separated entry list. -/
theorem writeEntries_spec (l : List (String × Bytes)) :
    Coggia.writeEntries false l = commaSeparated (l.map rangeEntry) ∧
    Coggia.writeEntries true l =
      (if l = [] then "" else "," ++ commaSeparated (l.map rangeEntry)) := by
  induction l with
  | nil => exact ⟨rfl, by simp [Coggia.writeEntries]⟩
  | cons kv rest ih =>
    obtain ⟨k, v⟩ := kv
    obtain ⟨ih1, ih2⟩ := ih
    cases rest with
    | nil =>
      constructor
      · rw [writeEntries_cons]
        apply String.ext
        simp [Coggia.writeEntries, commaSeparated, rangeEntry, String.data_append]
      · rw [writeEntries_cons]
        apply String.ext
        simp [Coggia.writeEntries, commaSeparated, rangeEntry, String.data_append]
    | cons kv2 rest2 =>
      constructor
      · rw [writeEntries_cons, ih2]
        apply String.ext
        simp [commaSeparated, rangeEntry, String.data_append]
      · rw [writeEntries_cons, ih2]
        apply String.ext
        simp [commaSeparated, rangeEntry, String.data_append]

/-- C7: for every startKey and endKey, `getWalletsByRange` succeeds with the
JSON array holding one `{"Key":..., "Record":...}` object per store entry
with key in `[startKey, endKey)` (start inclusive, end exclusive, in the
iteration order of the store), and an empty range yields the empty array `[]` as
a success, not an error. -/
theorem getWalletsByRange_spec (stub : Stub) (startKey endKey : String)
    (h : stub.rangeFails = none) :
    (Coggia.getWalletsByRange stub [startKey, endKey]).1 =
      Response.success (some (rangeArray
        (stub.store.filter (fun kv => !strLt kv.1 startKey && strLt kv.1 endKey)))) ∧
    (stub.store.filter (fun kv => !strLt kv.1 startKey && strLt kv.1 endKey) = [] →
      (Coggia.getWalletsByRange stub [startKey, endKey]).1 = Response.success (some "[]")) := by
  have hw : ∀ l, Coggia.writeEntries false l = commaSeparated (l.map rangeEntry) :=
    fun l => (writeEntries_spec l).1
  have hmain : (Coggia.getWalletsByRange stub [startKey, endKey]).1 =
      Response.success (some (rangeArray
        (stub.store.filter (fun kv => !strLt kv.1 startKey && strLt kv.1 endKey)))) := by
    simp [Coggia.getWalletsByRange, Stub.range, h, rangeArray, hw]
  refine ⟨hmain, fun he => ?_⟩
  rw [hmain, he]
  decide

/-- Witness for C7: the example given in the spec. With wallets at keys `"a"`,
`"b"`, `"c"`, the range `["a", "c")` returns exactly the entries for `"a"`
and `"b"`, and the empty range `["z", "zz")` returns `[]`. -/
theorem getWalletsByRange_spec_witness :
    (Coggia.getWalletsByRange
        { stub0 with store := [("a", Bytes.cWallet "a" 1), ("b", Bytes.cWallet "b" 2),
          ("c", Bytes.cWallet "c" 3)] } ["a", "c"]).1 =
      Response.success (some (rangeArray [("a", Bytes.cWallet "a" 1), ("b", Bytes.cWallet "b" 2)])) ∧
    (Coggia.getWalletsByRange
        { stub0 with store := [("a", Bytes.cWallet "a" 1), ("b", Bytes.cWallet "b" 2),
          ("c", Bytes.cWallet "c" 3)] } ["z", "zz"]).1 = Response.success (some "[]") :=
  ⟨((getWalletsByRange_spec
      { stub0 with store := [("a", Bytes.cWallet "a" 1), ("b", Bytes.cWallet "b" 2),
        ("c", Bytes.cWallet "c" 3)] } "a" "c" rfl).1).trans (by decide),
   (getWalletsByRange_spec
      { stub0 with store := [("a", Bytes.cWallet "a" 1), ("b", Bytes.cWallet "b" 2),
        ("c", Bytes.cWallet "c" 3)] } "z" "zz" rfl).2 (by decide)⟩

/-- Counterexample to C8 as stated: when only the index-entry `PutState`
faults (here with message "boom" on the composite key for `("w1", 5)`),
`initWallet` still returns success — the source discards the result of the
index write — instead of surfacing the fault and not returning success. -/
theorem initWallet_index_put_fault_ignored :
    ({ stub0 with putFails := fun k =>
        if k = compositeKey "address~balance" ["w1", "5"] then some "boom" else none } : Stub).putFails
      (compositeKey "address~balance" ["w1", "5"]) = some "boom" ∧
    (Coggia.initWallet
        { stub0 with putFails := fun k =>
          if k = compositeKey "address~balance" ["w1", "5"] then some "boom" else none }
        ["w1", "5"]).1 = Response.success none := by
  refine ⟨by decide, by decide⟩

/-- C8 (amended): a fault of the primary wallet-record write surfaces
verbatim as the response error and leaves the store unchanged; a fault of
the index-entry write is ignored (its error is discarded by the source) and
the create still returns success. -/
theorem initWallet_store_fault_amended :
    (∀ (stub : Stub) (addr balStr m : String), 0 < addr.length →
      stub.putFails addr = some m →
      (Coggia.initWallet stub [addr, balStr]).1 = Response.error m ∧
      (Coggia.initWallet stub [addr, balStr]).2.store = stub.store) ∧
    (∀ (stub : Stub) (addr balStr : String), 0 < addr.length → stub.putFails addr = none →
      (Coggia.initWallet stub [addr, balStr]).1 = Response.success none) := by
  constructor
  · intro stub addr balStr m hlen hfault
    have hne : ¬ (addr.length ≤ 0) := by omega
    constructor <;> simp [Coggia.initWallet, Stub.put, hne, hfault]
  · intro stub addr balStr hlen hput
    have hne : ¬ (addr.length ≤ 0) := by omega
    rcases hidx : stub.putFails
        (compositeKey "address~balance" [addr, Itoa ((Atoi balStr).getD 0)]) with _ | m <;>
      simp [Coggia.initWallet, Stub.put, hne, hput, hidx]

/-- Witness for C8 (amended): a primary-write fault on `"w3"` surfaces as
the error "disk full" with the store unchanged, and the fault-free create
succeeds. -/
theorem initWallet_store_fault_amended_witness :
    ((Coggia.initWallet { stub0 with putFails := fun k => if k = "w3" then some "disk full" else none }
        ["w3", "9"]).1 = Response.error "disk full" ∧
      (Coggia.initWallet { stub0 with putFails := fun k => if k = "w3" then some "disk full" else none }
        ["w3", "9"]).2.store =
        ({ stub0 with putFails := fun k => if k = "w3" then some "disk full" else none } : Stub).store) ∧
    (Coggia.initWallet stub0 ["w3", "9"]).1 = Response.success none :=
  ⟨initWallet_store_fault_amended.1
      { stub0 with putFails := fun k => if k = "w3" then some "disk full" else none }
      "w3" "9" "disk full" (by decide) (by decide),
   initWallet_store_fault_amended.2 stub0 "w3" "9" (by decide) rfl⟩

/-- C9: `deleteWallet(id)` succeeds without any existence check (given no
backing-store fault on the delete), removes exactly the primary record at
`id` — a subsequent `queryWallet(id)` fails with the does-not-exist error —
leaves every other key unchanged, in particular any
`address~balance` composite index entry whose first attribute is `id`. -/
theorem deleteWallet_frame (stub : Stub) (id : String) (rest : List String)
    (hdel : stub.delFails id = none) :
    (Halley.deleteWallet stub (id :: rest)).1 = Response.success none ∧
    stGet (Halley.deleteWallet stub (id :: rest)).2.store id = none ∧
    (∀ j, j ≠ id → stGet (Halley.deleteWallet stub (id :: rest)).2.store j = stGet stub.store j) ∧
    (stub.getFails id = none →
      (Halley.queryWallet (Halley.deleteWallet stub (id :: rest)).2 [id]).1 =
        Response.error ("\x7b\"Error\":\"Wallet does not exist: " ++ id ++ "\"\x7d")) ∧
    (∀ balAttr, stGet (Halley.deleteWallet stub (id :: rest)).2.store
        (compositeKey "address~balance" [id, balAttr]) =
      stGet stub.store (compositeKey "address~balance" [id, balAttr])) := by
  have hst : (Halley.deleteWallet stub (id :: rest)).2.store = stDel stub.store id := by
    simp [Halley.deleteWallet, Stub.del, hdel]
  have hgf : (Halley.deleteWallet stub (id :: rest)).2.getFails = stub.getFails := by
    simp [Halley.deleteWallet, Stub.del, hdel]
  refine ⟨?_, ?_, ?_, ?_, ?_⟩
  · simp [Halley.deleteWallet, Stub.del, hdel]
  · rw [hst]
    exact stGet_stDel_self stub.store id
  · intro j hj
    rw [hst]
    exact stGet_stDel_ne stub.store id j hj
  · intro hget
    simp [Halley.queryWallet, Stub.get, hgf, hget, hst, stGet_stDel_self]
  · intro balAttr
    rw [hst]
    exact stGet_stDel_ne stub.store id _ (compositeKey_ne_attr "address~balance" id balAttr)

/-- Witness for C9: deleting `"w2"` from a store that also holds an
unrelated entry `"idx"` succeeds, empties key `"w2"`, leaves `"idx"` and the
`("w2", 50)` composite index key unchanged, and makes `queryWallet("w2")`
fail with the does-not-exist error. -/
theorem deleteWallet_frame_witness :
    (Halley.deleteWallet { stub0 with store := [("idx", Bytes.sentinel), ("w2", Bytes.hWallet)] }
        ["w2"]).1 = Response.success none ∧
    stGet (Halley.deleteWallet { stub0 with store := [("idx", Bytes.sentinel), ("w2", Bytes.hWallet)] }
        ["w2"]).2.store "w2" = none ∧
    stGet (Halley.deleteWallet { stub0 with store := [("idx", Bytes.sentinel), ("w2", Bytes.hWallet)] }
        ["w2"]).2.store "idx" =
      stGet ({ stub0 with store := [("idx", Bytes.sentinel), ("w2", Bytes.hWallet)] } : Stub).store "idx" ∧
    (Halley.queryWallet (Halley.deleteWallet
        { stub0 with store := [("idx", Bytes.sentinel), ("w2", Bytes.hWallet)] } ["w2"]).2 ["w2"]).1 =
      Response.error ("\x7b\"Error\":\"Wallet does not exist: " ++ "w2" ++ "\"\x7d") ∧
    stGet (Halley.deleteWallet { stub0 with store := [("idx", Bytes.sentinel), ("w2", Bytes.hWallet)] }
        ["w2"]).2.store (compositeKey "address~balance" ["w2", "50"]) =
      stGet ({ stub0 with store := [("idx", Bytes.sentinel), ("w2", Bytes.hWallet)] } : Stub).store
        (compositeKey "address~balance" ["w2", "50"]) :=
  ⟨(deleteWallet_frame { stub0 with store := [("idx", Bytes.sentinel), ("w2", Bytes.hWallet)] }
      "w2" [] rfl).1,
   (deleteWallet_frame { stub0 with store := [("idx", Bytes.sentinel), ("w2", Bytes.hWallet)] }
      "w2" [] rfl).2.1,
   (deleteWallet_frame { stub0 with store := [("idx", Bytes.sentinel), ("w2", Bytes.hWallet)] }
      "w2" [] rfl).2.2.1 "idx" (by decide),
   (deleteWallet_frame { stub0 with store := [("idx", Bytes.sentinel), ("w2", Bytes.hWallet)] }
      "w2" [] rfl).2.2.2.1 rfl,
   (deleteWallet_frame { stub0 with store := [("idx", Bytes.sentinel), ("w2", Bytes.hWallet)] }
      "w2" [] rfl).2.2.2.2 "50"⟩

/-- C10: for every operation name outside the dispatched set, both `Invoke`
dispatchers return the error "Received Unknown function invocation" and
leave the stub — store and operation trace included — completely unchanged,
i.e. no store read or write is performed. -/
theorem invoke_unknown_no_dispatch (stub : Stub) (f : String) (args : List String)
    (h1 : f ≠ "initWallet") (h2 : f ≠ "transferFunds") (h3 : f ≠ "readWallet")
    (h4 : f ≠ "getWalletsByRange") (h5 : f ≠ "createWallet") (h6 : f ≠ "queryWallet")
    (h7 : f ≠ "deleteWallet") :
    Coggia.Invoke stub f args = (Response.error "Received Unknown function invocation", stub) ∧
    Halley.Invoke stub f args = (Response.error "Received Unknown function invocation", stub) := by
  constructor <;> simp [Coggia.Invoke, Halley.Invoke, h1, h2, h3, h4, h5, h6, h7]

/-- Witness for C10: the unknown operation name "mintTokens". -/
theorem invoke_unknown_no_dispatch_witness :
    Coggia.Invoke stub0 "mintTokens" ["x"] =
      (Response.error "Received Unknown function invocation", stub0) ∧
    Halley.Invoke stub0 "mintTokens" ["x"] =
      (Response.error "Received Unknown function invocation", stub0) :=
  invoke_unknown_no_dispatch stub0 "mintTokens" ["x"] (by decide) (by decide) (by decide)
    (by decide) (by decide) (by decide) (by decide)
